import Mathlib

/-!
Shallow embedding of `cosmo_utils/utils/stats_funcs.py` (module of five public
functions: `myceil`, `myfloor`, `Bins_array_create`, `sigma_calcs`,
`Stats_one_arr`).

Modelling conventions:
* Python floats are modelled as rationals (`ℚ`); quantities produced by
  `sqrt` (standard deviations, standard errors) live in `ℝ` via `Real.sqrt`.
* A numpy "NaN" (missing value) entry of a data array is modelled as `none`
  in `Option ℚ`; the `nan*` reductions skip such entries exactly as the
  numpy `nanmean`/`nanstd`/`nanpercentile` functions do.
* Fallible Python code (raised exceptions) is modelled with `Except PyErr`.
* `ℚ` division is total (`x / 0 = 0`) whereas Python float division by zero
  raises `ZeroDivisionError`; every theorem below that exercises a division
  by `base` therefore carries a `0 < base` hypothesis, matching the module
  docstrings (the base is a bin width).
-/

namespace StatsFuncs

/-- Structured content of the `LSSUtils_Error` messages raised by the module.
Each constructor records the data interpolated into the corresponding
`format` string of the source. -/
inductive LSSMsg where
  /-- "The input array is not of dimension 1, but of `{ndim}`" -/
  | shapeMsg (ndim : Nat) : LSSMsg
  /-- "`arr_digit` ({v}) is not a valid input. Exiting" -/
  | badArrDigit (v : String) : LSSMsg
  /-- "The arrays `x1` and `y2` must have at least one value" -/
  | emptyInput : LSSMsg
  /-- "`arr_len` ({v}) must be greated than zero!" -/
  | badArrLen (v : Int) : LSSMsg
  /-- "`bin_statval` ({v}) is not a valid input! Exiting" -/
  | badBinStatval (v : String) : LSSMsg
  deriving DecidableEq, Repr

/-- Python runtime exceptions that the translated code can raise. -/
inductive PyErr where
  /-- `LSSUtils_Error(msg)`, the module's custom exception. -/
  | lssError (msg : LSSMsg) : PyErr
  /-- `NameError`: an undefined variable name was referenced. -/
  | nameError (name : String) : PyErr
  /-- `TypeError`: e.g. `len()` applied to a float. -/
  | typeError : PyErr
  /-- `AttributeError`: e.g. `.flatten()` on a plain Python list. -/
  | attributeError (attr : String) : PyErr
  /-- `ValueError`: e.g. a numpy reduction over a zero-size array. -/
  | valueError : PyErr
  deriving DecidableEq, Repr

/-- `myceil(x, base)`, source lines 30-60: `float(base * math.ceil(float(x)/base))`. -/
def myceil (x base : ℚ) : ℚ := base * ⌈x / base⌉

/-- `myfloor(x, base)`, source lines 63-93: `float(base * math.floor(float(x)/base))`. -/
def myfloor (x base : ℚ) : ℚ := base * ⌊x / base⌋

/-- `arr.min()` of a nonempty numpy array with first element `a` and
remaining elements `l`. -/
def npMin (a : ℚ) (l : List ℚ) : ℚ := l.foldl min a

/-- `arr.max()` of a nonempty numpy array with first element `a` and
remaining elements `l`. -/
def npMax (a : ℚ) (l : List ℚ) : ℚ := l.foldl max a

/-- `numpy.arange(start, stop, step)` for exact rational arguments: the
values `start + k*step` for `k < ⌈(stop - start)/step⌉` (numpy's length
formula for a positive step; a non-positive count yields the empty array). -/
def arange (start stop step : ℚ) : List ℚ :=
  (List.range (⌈(stop - start) / step⌉).toNat).map (fun k : ℕ => start + (k : ℚ) * step)

/-- A numpy array as consumed by `Bins_array_create`: its dimensionality
together with its (flattened) elements.  Only `ndim` and the element
extrema are inspected by the source function. -/
structure NPArr where
  ndim : Nat
  data : List ℚ
  deriving DecidableEq, Repr

/-- `Bins_array_create(arr, base)`, source lines 96-136: checks
`arr.ndim != 1` (raising `LSSUtils_Error` with the actual dimensionality),
then returns `np.arange(myfloor(arr.min(), base), myceil(arr.max(), base)
+ 0.5*base, base)`.  A numpy reduction over an empty array raises
`ValueError`, modelled by the empty-data branch. -/
def Bins_array_create (arr : NPArr) (base : ℚ) : Except PyErr (List ℚ) :=
  if arr.ndim ≠ 1 then .error (.lssError (.shapeMsg arr.ndim))
  else
    match arr.data with
    | [] => .error .valueError
    | a :: l =>
      let arr_min := myfloor (npMin a l) base
      let arr_max := myceil (npMax a l) base
      .ok (arange arr_min (arr_max + (1/2) * base) base)

/-! ### `sigma_calcs` (source lines 139-212) -/

/-- The `data_arr` argument of `sigma_calcs`: a one- or two-dimensional
numpy array whose entries may be NaN (`none`). -/
inductive DataArr where
  | d1 (row : List (Option ℚ)) : DataArr
  | d2 (rows : List (List (Option ℚ))) : DataArr

/-- The slices of `data_arr` over which the reductions run: the whole array
for a 1-D input (`axis = 0`), each row for a 2-D input (`axis = 1`);
source lines 175-179. -/
def DataArr.rows : DataArr → List (List (Option ℚ))
  | .d1 row => [row]
  | .d2 rows => rows

/-- The valid (non-NaN) entries of a slice, in order. -/
def validVals (l : List (Option ℚ)) : List ℚ := l.filterMap id

/-- `np.nanmean` of one slice: the mean of the valid entries, NaN (`none`)
when there is none. -/
def nanmean1 (l : List (Option ℚ)) : Option ℚ :=
  let v := validVals l
  if v.length = 0 then none else some (v.sum / v.length)

/-- The variance (`ddof = 0`) of the valid entries of one slice, NaN
(`none`) when there is none; `np.nanstd` is its square root. -/
def nanvar1 (l : List (Option ℚ)) : Option ℚ :=
  let v := validVals l
  if v.length = 0 then none
  else some ((v.map (fun q => (q - v.sum / v.length) ^ 2)).sum / v.length)

/-- `np.nanstd` of one slice. -/
noncomputable def nanstd1 (l : List (Option ℚ)) : Option ℝ :=
  (nanvar1 l).map (fun q => Real.sqrt (q : ℝ))

/-- `np.nanpercentile` of one slice at percentage `q` (numpy's default
linear-interpolation method, on the sorted valid entries). -/
def nanpercentile1 (l : List (Option ℚ)) (q : ℚ) : Option ℚ :=
  let v := (validVals l).insertionSort (· ≤ ·)
  if v.length = 0 then none
  else
    let h : ℚ := (v.length - 1 : ℕ) * q / 100
    let i : ℕ := (⌊h⌋).toNat
    let lo := v.getD i 0
    let hi := v.getD (i + 1) lo
    some (lo + (h - ⌊h⌋) * (hi - lo))

/-- `mean_val - ((ii+1) * std_val)` for one slice, with numpy's NaN
propagation (source line 196; `k = ii + 1`). -/
noncomputable def optLower (m : Option ℚ) (s : Option ℝ) (k : ℕ) : Option ℝ :=
  match m, s with
  | some m, some s => some ((m : ℝ) - k * s)
  | _, _ => none

/-- `mean_val + ((ii+1) * std_val)` for one slice, with numpy's NaN
propagation (source line 197; `k = ii + 1`). -/
noncomputable def optUpper (m : Option ℚ) (s : Option ℝ) (k : ℕ) : Option ℝ :=
  match m, s with
  | some m, some s => some ((m : ℝ) + k * s)
  | _, _ => none

/-- A value of the Python dictionary `sigma_dict`: either the initial plain
Python list `[]` (source line 183), or the 2×n array
`np.column_stack((mark_lower, mark_upper)).T` (rows = lower bounds, upper
bounds), or the 1-D array produced by `.flatten()` for 1-D input. -/
inductive SigmaVal where
  | pyList : SigmaVal
  | arr2 (lower upper : List (Option ℝ)) : SigmaVal
  | arr1 (entries : List (Option ℝ)) : SigmaVal

/-- `v.flatten()` applied to a dictionary value (source line 207): a plain
Python list has no `flatten` attribute, so the initial `[]` raises
`AttributeError`; a 2×n array flattens row-major. -/
def SigmaVal.flatten : SigmaVal → Except PyErr SigmaVal
  | .pyList => .error (.attributeError "flatten")
  | .arr2 lower upper => .ok (.arr1 (lower ++ upper))
  | .arr1 entries => .ok (.arr1 entries)

/-- A Python list comprehension over a fallible body: elements are produced
left to right and the first raised exception propagates. -/
def mapE (f : α → Except PyErr β) : List α → Except PyErr (List β)
  | [] => .ok []
  | a :: as =>
    match f a with
    | .error e => .error e
    | .ok b =>
      match mapE f as with
      | .error e => .error e
      | .ok bs => .ok (b :: bs)

/-- The value returned by `sigma_calcs`: the dictionary (keys `0 ..
len(perc_arr) - 1`, modelled positionally) and, when `return_mean_std` is
set, the overall nan-mean and nan-std along the reduction axis (source
lines 201-212). -/
structure SigmaResult where
  dict : List SigmaVal
  meanStd : Option (List (Option ℚ) × List (Option ℝ))

/-- `sigma_calcs(data_arr, type_sigma, perc_arr, return_mean_std)`, source
lines 139-212, translated clause by clause: dictionary initialised with
plain `[]` values; the `'perc'` branch stores stacked nan-percentile
bounds; the `'std'` branch stores `mean ∓ (ii+1)·std`; for 1-D input every
dictionary value is `.flatten()`-ed (which raises `AttributeError` on a
value still equal to the initial `[]`). -/
noncomputable def sigma_calcs (data_arr : DataArr) (type_sigma : String)
    (perc_arr : List ℚ) (return_mean_std : Bool) : Except PyErr SigmaResult :=
  let rows := data_arr.rows
  let dict0 : List SigmaVal := perc_arr.map (fun _ => .pyList)
  let dict1 : List SigmaVal :=
    if type_sigma = "perc" then
      perc_arr.map (fun p => SigmaVal.arr2
        (rows.map (fun r => (nanpercentile1 r (50 - p / 2)).map (fun q => (q : ℝ))))
        (rows.map (fun r => (nanpercentile1 r (50 + p / 2)).map (fun q => (q : ℝ)))))
    else dict0
  let dict2 : List SigmaVal :=
    if type_sigma = "std" then
      let mean_val := rows.map nanmean1
      let std_val := rows.map nanstd1
      (List.range perc_arr.length).map (fun ii => SigmaVal.arr2
        (List.zipWith (fun m s => optLower m s (ii + 1)) mean_val std_val)
        (List.zipWith (fun m s => optUpper m s (ii + 1)) mean_val std_val))
    else dict1
  let mark_mean := rows.map nanmean1
  let mark_std := rows.map nanstd1
  let meanStd := if return_mean_std then some (mark_mean, mark_std) else none
  match data_arr with
  | .d1 _ =>
    match mapE SigmaVal.flatten dict2 with
    | .error e => .error e
    | .ok d => .ok ⟨d, meanStd⟩
  | .d2 _ => .ok ⟨dict2, meanStd⟩

/-! ### `Stats_one_arr` (source lines 215-383) -/

/-- The `statfunc` argument of `Stats_one_arr`; the source restricts it to
`np.nanmean` or `np.nanmedian` (a median triggers the 1.253 standard-error
correction at line 358). -/
inductive StatFunc where
  | nanmean : StatFunc
  | nanmedian : StatFunc
  deriving DecidableEq, Repr

/-- `np.nanmean` of a (NaN-free, nonempty) bin subsequence. -/
def nanmeanQ (l : List ℚ) : ℚ := l.sum / l.length

/-- `np.nanmedian` of a (NaN-free, nonempty) bin subsequence: middle element
of the sorted values, or the average of the two middle elements. -/
def nanmedianQ (l : List ℚ) : ℚ :=
  let s := l.insertionSort (· ≤ ·)
  if l.length % 2 = 1 then s.getD (l.length / 2) 0
  else (s.getD (l.length / 2 - 1) 0 + s.getD (l.length / 2) 0) / 2

/-- Application of the `statfunc` parameter to a bin subsequence. -/
def statApply : StatFunc → List ℚ → ℚ
  | .nanmean, l => nanmeanQ l
  | .nanmedian, l => nanmedianQ l

/-- The variance (`ddof = 0`) of a (NaN-free, nonempty) list. -/
def varQ (l : List ℚ) : ℚ :=
  (l.map (fun q => (q - l.sum / l.length) ^ 2)).sum / l.length

/-- `np.nanstd` of a (NaN-free, nonempty) bin subsequence. -/
noncomputable def nanstdQ (l : List ℚ) : ℝ := Real.sqrt ((varQ l : ℚ) : ℝ)

/-- `np.digitize(v, bins)` for monotonically increasing `bins` (the default
`right=False` convention): the number of bin edges ≤ `v`; `0` means below
all edges, `len(bins)` means at or above the last edge. -/
def digitize (v : ℚ) (bins : List ℚ) : ℕ :=
  (bins.filter (fun b => b ≤ v)).length

/-- An element of the object array `x_bins_data` / `y_bins_data` (source
lines 313-319): either the subsequence of values falling in the bin, or the
`failval` float assigned when the bin's occupancy is too low. -/
inductive BinEntry where
  | sub (l : List ℚ) : BinEntry
  | failv (q : ℚ) : BinEntry
  deriving DecidableEq, Repr

/-- `x[x_digits == ii]`: the subsequence of `x` whose digitized bin index
equals `ii`. -/
def binSelect (x : List ℚ) (bins : List ℚ) (ii : ℕ) : List ℚ :=
  x.filter (fun v => digitize v bins = ii)

/-- `y[x_digits == ii]`: the subsequence of `y` at the positions where the
digitized bin index of the corresponding `x` value equals `ii` (modelled
for the paired case `len(x) = len(y)`; numpy raises on a mask-length
mismatch). -/
def binSelectY (x y : List ℚ) (bins : List ℚ) (ii : ℕ) : List ℚ :=
  ((x.zip y).filter (fun p => digitize p.1 bins = ii)).map (fun p => p.2)

/-- Source line 305: `arr_len = int(arr_len - 1.) if arr_len != 0 else
int(arr_len)` — the supplied minimum-count threshold is decremented by one
before any comparison. -/
def arrLenAdjust (arr_len : ℤ) : ℤ := if arr_len ≠ 0 then arr_len - 1 else arr_len

/-- Source lines 313-315: `x_bins_data = np.array([x[x_digits == ii] if
len(x[x_digits == ii]) > arr_len else failval for ii in range(1,
len(x_bins))])`, with `t` the already-decremented threshold. -/
def binsData (x : List ℚ) (bins : List ℚ) (t : ℤ) (failval : ℚ) : List BinEntry :=
  (List.range' 1 (bins.length - 1)).map (fun ii =>
    let s := binSelect x bins ii
    if t < (s.length : ℤ) then .sub s else .failv failval)

/-- Source lines 317-319: the same comprehension for `y[x_digits == ii]`. -/
def binsDataY (x y : List ℚ) (bins : List ℚ) (t : ℤ) (failval : ℚ) : List BinEntry :=
  (List.range' 1 (bins.length - 1)).map (fun ii =>
    let s := binSelectY x y bins ii
    if t < (s.length : ℤ) then .sub s else .failv failval)

/-- Source lines 323-335: the `x_stat` comprehensions.  Each comprehension
body first evaluates `len(ii)` (resp. `len(x_bins_data[ii])`); when the
entry is the `failval` float this is `len()` of a float and raises
`TypeError`. -/
def xStatCalc (x_bins : List ℚ) (x_bins_data : List BinEntry)
    (bin_statval : String) (f : StatFunc) (t : ℤ) (failval : ℚ) :
    Except PyErr (List ℚ) :=
  if bin_statval = "average" then
    mapE (fun e => match e with
      | .sub l => .ok (if t < (l.length : ℤ) then statApply f l else failval)
      | .failv _ => .error .typeError) x_bins_data
  else if bin_statval = "left" then
    mapE (fun p => match p.2 with
      | .sub l => .ok (if t < (l.length : ℤ) then x_bins.dropLast.getD p.1 0 else failval)
      | .failv _ => .error .typeError) x_bins_data.enum
  else
    mapE (fun p => match p.2 with
      | .sub l => .ok (if t < (l.length : ℤ) then (x_bins.drop 1).getD p.1 0 else failval)
      | .failv _ => .error .typeError) x_bins_data.enum

/-- Source lines 339-340: `y_stat = np.array([statfunc(ii) if len(ii) >
arr_len else failval for ii in y_bins_data])`. -/
def yStatCalc (y_bins_data : List BinEntry) (f : StatFunc) (t : ℤ)
    (failval : ℚ) : Except PyErr (List ℚ) :=
  mapE (fun e => match e with
    | .sub l => .ok (if t < (l.length : ℤ) then statApply f l else failval)
    | .failv _ => .error .typeError) y_bins_data

/-- Source lines 345-347: `y_std_err = np.array([np.nanstd(ii) /
math.sqrt(len(ii)) if len(ii) > arr_len else failval for ii in
y_bins_data])`. -/
noncomputable def yStdErrCalc (y_bins_data : List BinEntry) (t : ℤ)
    (failval : ℚ) : Except PyErr (List ℝ) :=
  mapE (fun e => match e with
    | .sub l => .ok (if t < (l.length : ℤ) then nanstdQ l / Real.sqrt (l.length : ℝ)
        else (failval : ℝ))
    | .failv _ => .error .typeError) y_bins_data

/-- The value bound to `y_std` at source lines 342-343: `np.array(...)` is
applied to a *generator* — the brackets of the other comprehensions are
missing — which numpy wraps as a zero-dimensional object array; the
generator is never iterated afterwards.  `arr1d` is the shape every other
statistic array has. -/
inductive NpObj where
  | arr1d (l : List ℝ) : NpObj
  | gen0d : NpObj

/-- `np.where(x_stat != failval)[0]` (source line 350): the indices of the
entries of `x_stat` that differ from `failval`. -/
def failIdx (l : List ℚ) (failval : ℚ) : List ℕ :=
  ((l.enum.filter (fun p => p.2 ≠ failval)).map (fun p => p.1))

/-- Fancy indexing `l[idx]` with an in-range index array. -/
def selectIdx (l : List α) (idx : List ℕ) : List α := idx.filterMap l.get?

/-- The quantities computed by the body of `Stats_one_arr` (source lines
349-383); `percArrLims` is `some` when the percentile block runs.  Lines
366-383 return a subset of these fields selected by `arr_digit` and
`return_perc`. -/
structure BSResult where
  x_stat : List ℚ
  y_stat : List ℚ
  y_std : NpObj
  y_std_err : List ℝ
  x_bins_data : List BinEntry
  y_bins_data : List BinEntry
  percArrLims : Option (List SigmaVal)

/-- `Stats_one_arr(x, y, base, arr_len, arr_digit, weights, statfunc,
bin_statval, failval)` translated literally from source lines 215-383: the
four eager validations (lines 281-299) in order, then line 304
`nelem = len(x1)` — `x1` is an undefined name, so every run that passes
validation raises `NameError: x1` and the remainder of the body (lines
305-383) is unreachable.  (`weights` is accepted and never used by the
source; it is omitted here.) -/
def Stats_one_arr (x y : List ℚ) (base : ℚ) (arr_len : ℤ)
    (arr_digit : String) (statfunc : StatFunc) (bin_statval : String)
    (failval : ℚ) : Except PyErr BSResult :=
  if ¬(arr_digit = "y" ∨ arr_digit = "n" ∨ arr_digit = "o") then
    .error (.lssError (.badArrDigit arr_digit))
  else if ¬(0 < x.length ∧ 0 < y.length) then
    .error (.lssError .emptyInput)
  else if ¬(0 < arr_len) then
    .error (.lssError (.badArrLen arr_len))
  else if ¬(bin_statval = "average" ∨ bin_statval = "left" ∨ bin_statval = "right") then
    .error (.lssError (.badBinStatval bin_statval))
  else
    .error (.nameError "x1")

/-- The body of `Stats_one_arr` with the two undefined names bound the way
the spec's design notes prescribe (`x1` read as `x`, `return_perc` an
explicit parameter), so that the binning-and-aggregation pipeline of lines
300-383 can be reasoned about: validations, threshold decrement
(`arrLenAdjust`), bin edges, per-bin partitions (`binsData`,`binsDataY`),
the three `x_stat` conventions, `y_stat`, the generator-wrapped `y_std`,
`y_std_err`, the fail-bin removal of lines 350-355 (which does *not*
touch `y_std`), the median correction, and the optional percentile block
`sigma_calcs(y_stat)`. -/
noncomputable def Stats_one_arr_patched (x y : List ℚ) (base : ℚ)
    (arr_len : ℤ) (arr_digit : String) (statfunc : StatFunc)
    (bin_statval : String) (failval : ℚ) (return_perc : Bool) :
    Except PyErr BSResult :=
  if ¬(arr_digit = "y" ∨ arr_digit = "n" ∨ arr_digit = "o") then
    .error (.lssError (.badArrDigit arr_digit))
  else if ¬(0 < x.length ∧ 0 < y.length) then
    .error (.lssError .emptyInput)
  else if ¬(0 < arr_len) then
    .error (.lssError (.badArrLen arr_len))
  else if ¬(bin_statval = "average" ∨ bin_statval = "left" ∨ bin_statval = "right") then
    .error (.lssError (.badBinStatval bin_statval))
  else
    let t := arrLenAdjust arr_len
    match Bins_array_create ⟨1, x⟩ base with
    | .error e => .error e
    | .ok x_bins =>
      let x_bins_data := binsData x x_bins t failval
      let y_bins_data := binsDataY x y x_bins t failval
      match xStatCalc x_bins x_bins_data bin_statval statfunc t failval with
      | .error e => .error e
      | .ok x_stat =>
        match yStatCalc y_bins_data statfunc t failval with
        | .error e => .error e
        | .ok y_stat =>
          let y_std : NpObj := .gen0d
          match yStdErrCalc y_bins_data t failval with
          | .error e => .error e
          | .ok y_std_err =>
            let keep := failIdx x_stat failval
            let x_stat := selectIdx x_stat keep
            let y_stat := selectIdx y_stat keep
            let y_std_err := selectIdx y_std_err keep
            let x_bins_data := selectIdx x_bins_data keep
            let y_bins_data := selectIdx y_bins_data keep
            let y_std_err := if statfunc = .nanmedian
              then y_std_err.map (fun v => v * (1253 / 1000 : ℝ)) else y_std_err
            if return_perc then
              match sigma_calcs (.d1 (y_stat.map some)) "std" [68, 95, 997/10] false with
              | .error e => .error e
              | .ok s =>
                .ok ⟨x_stat, y_stat, y_std, y_std_err, x_bins_data, y_bins_data, some s.dict⟩
            else
              .ok ⟨x_stat, y_stat, y_std, y_std_err, x_bins_data, y_bins_data, none⟩

/-! ## Theorems -/

/-- Whether a computation raised the module's own `LSSUtils_Error`. -/
def isLssError {α : Type} : Except PyErr α → Bool
  | .error (.lssError _) => true
  | _ => false

/-- **C1.**  Every call of `Stats_one_arr` that passes the four eager
parameter validations fails with the undefined-variable error
`NameError: x1` (line 304 references `x1`, never defined; line 362 likewise
references the undefined `return_perc`, but execution never reaches it) and
so never returns a result. -/
theorem claim1_undefined_name_crash (x y : List ℚ) (base : ℚ) (arr_len : ℤ)
    (arr_digit : String) (f : StatFunc) (bsv : String) (fv : ℚ)
    (h1 : arr_digit = "y" ∨ arr_digit = "n" ∨ arr_digit = "o")
    (h2 : 0 < x.length) (h3 : 0 < y.length) (h4 : 0 < arr_len)
    (h5 : bsv = "average" ∨ bsv = "left" ∨ bsv = "right") :
    Stats_one_arr x y base arr_len arr_digit f bsv fv = .error (.nameError "x1") := by
  unfold Stats_one_arr
  rw [if_neg, if_neg, if_neg, if_neg] <;> simp_all

/-- Witness for C1: a concrete valid call crashes with `NameError: x1`. -/
theorem claim1_witness :
    Stats_one_arr [1] [1] 1 1 "n" .nanmean "average" 0 = .error (.nameError "x1") :=
  claim1_undefined_name_crash [1] [1] 1 1 "n" .nanmean "average" 0
    (Or.inr (Or.inl rfl)) (by decide) (by decide) (by decide) (Or.inl rfl)

/-- **C8.**  `Stats_one_arr` validates eagerly: it raises an
`LSSUtils_Error` exactly when `arr_digit ∉ {y,n,o}`, or `x`/`y` is empty,
or `arr_len ≤ 0`, or `bin_statval ∉ {average,left,right}`; the error raised
is the one of the first failing check in the order the source performs
them, carrying the offending field/value, so no computation precedes the
checks. -/
theorem claim8_eager_validation (x y : List ℚ) (base : ℚ) (arr_len : ℤ)
    (arr_digit : String) (f : StatFunc) (bsv : String) (fv : ℚ) :
    (isLssError (Stats_one_arr x y base arr_len arr_digit f bsv fv) = true ↔
      (¬(arr_digit = "y" ∨ arr_digit = "n" ∨ arr_digit = "o") ∨
        x.length = 0 ∨ y.length = 0 ∨ ¬(0 < arr_len) ∨
        ¬(bsv = "average" ∨ bsv = "left" ∨ bsv = "right"))) ∧
    (¬(arr_digit = "y" ∨ arr_digit = "n" ∨ arr_digit = "o") →
      Stats_one_arr x y base arr_len arr_digit f bsv fv =
        .error (.lssError (.badArrDigit arr_digit))) ∧
    ((arr_digit = "y" ∨ arr_digit = "n" ∨ arr_digit = "o") →
      (x.length = 0 ∨ y.length = 0) →
      Stats_one_arr x y base arr_len arr_digit f bsv fv =
        .error (.lssError .emptyInput)) ∧
    ((arr_digit = "y" ∨ arr_digit = "n" ∨ arr_digit = "o") →
      0 < x.length → 0 < y.length → ¬(0 < arr_len) →
      Stats_one_arr x y base arr_len arr_digit f bsv fv =
        .error (.lssError (.badArrLen arr_len))) ∧
    ((arr_digit = "y" ∨ arr_digit = "n" ∨ arr_digit = "o") →
      0 < x.length → 0 < y.length → 0 < arr_len →
      ¬(bsv = "average" ∨ bsv = "left" ∨ bsv = "right") →
      Stats_one_arr x y base arr_len arr_digit f bsv fv =
        .error (.lssError (.badBinStatval bsv))) := by
  unfold Stats_one_arr
  split_ifs with h1 h2 h3 h4 <;>
    simp_all [isLssError, Nat.pos_iff_ne_zero] <;> tauto

/-- Witness for C8: concrete calls hitting each validation and one passing
them (in which case the raised error is not a validation error). -/
theorem claim8_witness :
    Stats_one_arr [1] [1] 1 1 "q" .nanmean "average" 0 =
      .error (.lssError (.badArrDigit "q")) ∧
    Stats_one_arr [] [1] 1 1 "n" .nanmean "average" 0 =
      .error (.lssError .emptyInput) ∧
    Stats_one_arr [1] [1] 1 0 "n" .nanmean "average" 0 =
      .error (.lssError (.badArrLen 0)) ∧
    Stats_one_arr [1] [1] 1 1 "n" .nanmean "middle" 0 =
      .error (.lssError (.badBinStatval "middle")) ∧
    isLssError (Stats_one_arr [1] [1] 1 1 "n" .nanmean "average" 0) = false :=
  ⟨(claim8_eager_validation [1] [1] 1 1 "q" .nanmean "average" 0).2.1 (by decide),
   (claim8_eager_validation [] [1] 1 1 "n" .nanmean "average" 0).2.2.1
     (Or.inr (Or.inl rfl)) (Or.inl rfl),
   (claim8_eager_validation [1] [1] 1 0 "n" .nanmean "average" 0).2.2.2.1
     (Or.inr (Or.inl rfl)) (by decide) (by decide) (by decide),
   (claim8_eager_validation [1] [1] 1 1 "n" .nanmean "middle" 0).2.2.2.2
     (Or.inr (Or.inl rfl)) (by decide) (by decide) (by decide) (by decide),
   by decide⟩

lemma range'_map_get? {α : Type} (f : ℕ → α) (s n i : ℕ) (h : i < n) :
    ((List.range' s n).map f).get? i = some (f (s + i)) := by
  induction n generalizing s i with
  | zero => omega
  | succ n ih =>
    rw [List.range'_succ]
    cases i with
    | zero => simp
    | succ i =>
      simpa [Nat.add_assoc, Nat.add_comm 1 i] using ih (s + 1) i (by omega)

/-- **C2.**  The bin-qualification test of `Stats_one_arr`: the supplied
threshold `arr_len` is decremented by one (`arrLenAdjust`, line 305) and a
bin's subsequence is kept exactly when its occupancy strictly exceeds the
decremented threshold (lines 313-315); hence for `arr_len > 0` a bin whose
occupancy equals `arr_len` receives its data subsequence and a bin whose
occupancy equals `arr_len - 1` receives the `failval` sentinel. -/
theorem claim2_minCount_threshold (x bins : List ℚ) (arr_len : ℤ) (fv : ℚ)
    (i : ℕ) (hlen : 0 < arr_len) (hi : i < bins.length - 1) :
    (((binSelect x bins (1 + i)).length : ℤ) = arr_len →
      (binsData x bins (arrLenAdjust arr_len) fv).get? i =
        some (.sub (binSelect x bins (1 + i)))) ∧
    (((binSelect x bins (1 + i)).length : ℤ) = arr_len - 1 →
      (binsData x bins (arrLenAdjust arr_len) fv).get? i = some (.failv fv)) ∧
    ((binsData x bins (arrLenAdjust arr_len) fv).get? i =
        some (.sub (binSelect x bins (1 + i))) ↔
      arr_len - 1 < ((binSelect x bins (1 + i)).length : ℤ)) := by
  have hadj : arrLenAdjust arr_len = arr_len - 1 := by
    unfold arrLenAdjust
    rw [if_pos (by omega)]
  have hget : (binsData x bins (arrLenAdjust arr_len) fv).get? i =
      some (if arr_len - 1 < ((binSelect x bins (1 + i)).length : ℤ)
        then .sub (binSelect x bins (1 + i)) else .failv fv) := by
    rw [hadj]
    unfold binsData
    rw [range'_map_get? _ 1 (bins.length - 1) i hi]
  refine ⟨fun hocc => ?_, fun hocc => ?_, ?_⟩
  · rw [hget, if_pos (by omega)]
  · rw [hget, if_neg (by omega)]
  · rw [hget]
    constructor
    · intro hsome
      by_contra hnot
      rw [if_neg hnot] at hsome
      simp at hsome
    · intro hgt
      rw [if_pos hgt]

/-- Witness for C2: with threshold 2, a bin of occupancy 2 keeps its data;
with threshold 3, the same bin of occupancy 2 gets the sentinel. -/
theorem claim2_witness :
    (binsData [0, 0] [0, 1] (arrLenAdjust 2) 7).get? 0 = some (.sub [0, 0]) ∧
    (binsData [0, 0] [0, 1] (arrLenAdjust 3) 7).get? 0 = some (.failv 7) :=
  ⟨(claim2_minCount_threshold [0, 0] [0, 1] 2 7 0 (by decide) (by decide)).1
      (by decide),
   (claim2_minCount_threshold [0, 0] [0, 1] 3 7 0 (by decide) (by decide)).2.1
      (by decide)⟩

lemma le_myceil (x base : ℚ) (hb : 0 < base) : x ≤ myceil x base := by
  rw [myceil, mul_comm]
  exact (div_le_iff₀ hb).mp (Int.le_ceil _)

lemma myceil_least (x base : ℚ) (hb : 0 < base) (k : ℤ) (hk : x ≤ base * k) :
    myceil x base ≤ base * k := by
  rw [myceil]
  have h1 : x / base ≤ (k : ℚ) := (div_le_iff₀ hb).mpr (by linarith [hk])
  have h2 : ⌈x / base⌉ ≤ k := Int.ceil_le.mpr h1
  exact mul_le_mul_of_nonneg_left (by exact_mod_cast h2) hb.le

lemma myfloor_le (x base : ℚ) (hb : 0 < base) : myfloor x base ≤ x := by
  rw [myfloor, mul_comm]
  exact (le_div_iff₀ hb).mp (Int.floor_le _)

lemma myfloor_greatest (x base : ℚ) (hb : 0 < base) (k : ℤ) (hk : base * k ≤ x) :
    base * k ≤ myfloor x base := by
  rw [myfloor]
  have h1 : (k : ℚ) ≤ x / base := (le_div_iff₀ hb).mpr (by linarith [hk])
  have h2 : k ≤ ⌊x / base⌋ := Int.le_floor.mpr h1
  exact mul_le_mul_of_nonneg_left (by exact_mod_cast h2) hb.le

lemma npMin_le_self (a : ℚ) (l : List ℚ) : npMin a l ≤ a := by
  induction l generalizing a with
  | nil => exact le_refl a
  | cons b l ih =>
    simp only [npMin, List.foldl_cons] at *
    exact le_trans (ih (min a b)) (min_le_left a b)

lemma self_le_npMax (a : ℚ) (l : List ℚ) : a ≤ npMax a l := by
  induction l generalizing a with
  | nil => exact le_refl a
  | cons b l ih =>
    simp only [npMax, List.foldl_cons] at *
    exact le_trans (le_max_left a b) (ih (max a b))

unseal Rat.mul Rat.inv Rat.add Rat.sub in
/-- Counterexample for C5: for the negative base `-10` (allowed by the
claim's "every nonzero finite base"), `myceil 12 (-10) = 10` is not ≥ 12,
so it is not the smallest multiple of the base that is ≥ x; likewise
`myfloor 12 (-10) = 20` is not ≤ 12. -/
theorem claim5_counterexample :
    myceil 12 (-10) = 10 ∧ ¬((12 : ℚ) ≤ myceil 12 (-10)) ∧
    myfloor 12 (-10) = 20 ∧ ¬(myfloor 12 (-10) ≤ (12 : ℚ)) := by
  decide

/-- **C5 (amended).**  For every `x` and every *positive* base (negative
bases falsify the extremal characterisation, see the counterexample):
`myceil x base = base * ⌈x/base⌉` is the smallest multiple of `base` that
is ≥ `x`, `myfloor x base = base * ⌊x/base⌋` is the largest multiple of
`base` that is ≤ `x`, and consequently for every nonempty array
`myfloor(min, base) ≤ min ≤ max ≤ myceil(max, base)`. -/
theorem claim5_rounding_extremal (x base : ℚ) (hb : 0 < base) :
    (myceil x base = base * ⌈x / base⌉ ∧ x ≤ myceil x base ∧
      ∀ k : ℤ, x ≤ base * k → myceil x base ≤ base * k) ∧
    (myfloor x base = base * ⌊x / base⌋ ∧ myfloor x base ≤ x ∧
      ∀ k : ℤ, (base * k : ℚ) ≤ x → base * k ≤ myfloor x base) ∧
    (∀ (a : ℚ) (l : List ℚ),
      myfloor (npMin a l) base ≤ npMin a l ∧ npMin a l ≤ npMax a l ∧
      npMax a l ≤ myceil (npMax a l) base) :=
  ⟨⟨rfl, le_myceil x base hb, fun k hk => myceil_least x base hb k hk⟩,
   ⟨rfl, myfloor_le x base hb, fun k hk => myfloor_greatest x base hb k hk⟩,
   fun a l =>
     ⟨myfloor_le (npMin a l) base hb,
      le_trans (npMin_le_self a l) (self_le_npMax a l),
      le_myceil (npMax a l) base hb⟩⟩

/-- Witness for C5 (amended): at `x = 12`, `base = 10` the rounded values
bracket `x` and `myceil` is below the competing multiple `10 * 2 = 20`. -/
theorem claim5_witness :
    (12 : ℚ) ≤ myceil 12 10 ∧ myceil 12 10 ≤ 10 * (2 : ℤ) ∧
    myfloor 12 10 ≤ (12 : ℚ) ∧ npMin 5 [7, 13, 12] ≤ npMax 5 [7, 13, 12] :=
  ⟨(claim5_rounding_extremal 12 10 (by norm_num)).1.2.1,
   (claim5_rounding_extremal 12 10 (by norm_num)).1.2.2 2 (by norm_num),
   (claim5_rounding_extremal 12 10 (by norm_num)).2.1.2.1,
   ((claim5_rounding_extremal 0 10 (by norm_num)).2.2 5 [7, 13, 12]).2.1⟩

/-- **C9.**  `Bins_array_create` raises the shape error carrying the
actual dimensionality for every input whose `ndim` is not 1 (whatever the
other arguments), and succeeds on every non-empty one-dimensional input
(with a positive bin width, the only case in which the Python division by
`base` is defined). -/
theorem claim9_shape_error (arr : NPArr) (base : ℚ) :
    (arr.ndim ≠ 1 →
      Bins_array_create arr base = .error (.lssError (.shapeMsg arr.ndim))) ∧
    (arr.ndim = 1 → arr.data ≠ [] → 0 < base →
      ∃ es, Bins_array_create arr base = .ok es) := by
  constructor
  · intro h
    unfold Bins_array_create
    rw [if_pos h]
  · intro h1 h2 _
    unfold Bins_array_create
    rw [if_neg (by omega)]
    match hd : arr.data with
    | [] => exact absurd hd h2
    | a :: l => exact ⟨_, rfl⟩

/-- Witness for C9: a 2-D input raises the shape error naming `2`; a
non-empty 1-D input succeeds. -/
theorem claim9_witness :
    Bins_array_create ⟨2, [1, 2]⟩ 10 = .error (.lssError (.shapeMsg 2)) ∧
    ∃ es, Bins_array_create ⟨1, [1, 2, 3, 4]⟩ 2 = .ok es :=
  ⟨(claim9_shape_error ⟨2, [1, 2]⟩ 10).1 (by decide),
   (claim9_shape_error ⟨1, [1, 2, 3, 4]⟩ 2).2 rfl (by decide) (by norm_num)⟩

lemma chain'_arith_progression (n : ℕ) (s d : ℚ) :
    ((List.range n).map (fun k : ℕ => s + k * d)).Chain' (fun p q => q = p + d) := by
  rw [List.chain'_iff_get]
  intro i h
  simp only [List.get_map, List.get_range]
  push_cast
  ring

lemma range_map_head? {α : Type} (f : ℕ → α) (n : ℕ) (h : 0 < n) :
    ((List.range n).map f).head? = some (f 0) := by
  obtain ⟨n', rfl⟩ : ∃ n', n = n' + 1 := ⟨n - 1, by omega⟩
  rw [List.range_succ_eq_map]
  rfl

lemma range_map_getLast? {α : Type} (f : ℕ → α) (n : ℕ) :
    ((List.range (n + 1)).map f).getLast? = some (f n) := by
  rw [List.range_succ, List.map_append]
  simp

/-- The general guarantee of `Bins_array_create` on valid input: the edge
array starts at the floored minimum, ends at the ceiled maximum, and is an
arithmetic progression of step `base` (hence strictly increasing). -/
lemma bins_array_create_spec (a : ℚ) (l : List ℚ) (base : ℚ) (hb : 0 < base) :
    ∃ es, Bins_array_create ⟨1, a :: l⟩ base = .ok es ∧
      es.head? = some (myfloor (npMin a l) base) ∧
      es.getLast? = some (myceil (npMax a l) base) ∧
      es.Chain' (fun p q => q = p + base) ∧
      es.Chain' (· < ·) := by
  have hb0 : base ≠ 0 := ne_of_gt hb
  set mn := npMin a l with hmn
  set mx := npMax a l with hmx
  set lo := myfloor mn base with hlo
  set hi := myceil mx base with hhi
  set m0 : ℤ := ⌈mx / base⌉ - ⌊mn / base⌋ with hm0def
  have hmnmx : mn ≤ mx := le_trans (npMin_le_self a l) (self_le_npMax a l)
  have hm0 : 0 ≤ m0 := by
    have h1 : ⌊mn / base⌋ ≤ ⌈mn / base⌉ := Int.floor_le_ceil _
    have h2 : ⌈mn / base⌉ ≤ ⌈mx / base⌉ := Int.ceil_le_ceil (by gcongr)
    omega
  have hhilo : hi - lo = base * m0 := by
    rw [hhi, hlo, myceil, myfloor, hm0def]
    push_cast
    ring
  have hcount : ⌈((hi + (1/2) * base) - lo) / base⌉ = m0 + 1 := by
    have heq : ((hi + (1/2) * base) - lo) / base = (m0 : ℚ) + 1/2 := by
      field_simp
      linarith [hhilo]
    rw [heq, add_comm, Int.ceil_add_int,
      show ⌈(1 : ℚ)/2⌉ = 1 from by rw [Int.ceil_eq_iff]; norm_num]
    ring
  have hN : (⌈((hi + (1/2) * base) - lo) / base⌉).toNat = m0.toNat + 1 := by
    rw [hcount]; omega
  refine ⟨arange lo (hi + (1/2) * base) base, ?_, ?_, ?_, ?_, ?_⟩
  · unfold Bins_array_create
    rw [if_neg (by simp)]
  · rw [arange, hN, range_map_head? _ _ (by omega)]
    norm_num
  · rw [arange, hN, range_map_getLast?]
    have : lo + (m0.toNat : ℚ) * base = hi := by
      rw [show ((m0.toNat : ℕ) : ℚ) = ((m0 : ℤ) : ℚ) by
        exact_mod_cast congrArg (fun z : ℤ => (z : ℚ)) (Int.toNat_of_nonneg hm0)]
      linarith [hhilo]
    rw [← this]
  · rw [arange]
    exact chain'_arith_progression _ lo base
  · rw [arange]
    exact (chain'_arith_progression _ lo base).imp (fun p q hpq => by
      rw [hpq]; linarith)

unseal Rat.mul Rat.inv Rat.add Rat.sub in
/-- **C4.**  For every non-empty 1-D array and positive base,
`Bins_array_create` returns the arithmetic progression of step `base` from
the floored minimum up to the ceiled maximum (strictly increasing, evenly
spaced, spanning `[lo, hi]`), and in particular the two documented
examples hold. -/
theorem claim4_bin_edges :
    (∀ (a : ℚ) (l : List ℚ) (base : ℚ), 0 < base →
      ∃ es, Bins_array_create ⟨1, a :: l⟩ base = .ok es ∧
        es.head? = some (myfloor (npMin a l) base) ∧
        es.getLast? = some (myceil (npMax a l) base) ∧
        es.Chain' (fun p q => q = p + base) ∧
        es.Chain' (· < ·)) ∧
    Bins_array_create ⟨1, [1, 2, 3, 4]⟩ 2 = .ok [0, 2, 4] ∧
    Bins_array_create ⟨1, [5, 7, 13, 12]⟩ 5 = .ok [5, 10, 15] :=
  ⟨fun a l base hb => bins_array_create_spec a l base hb, rfl, rfl⟩

unseal Rat.mul Rat.inv Rat.add Rat.sub in
/-- Witness for C4: instantiating the universally quantified part at the
first documented example. -/
theorem claim4_witness :
    (0 : ℚ) < 2 ∧
    ∃ es, Bins_array_create ⟨1, [1, 2, 3, 4]⟩ 2 = .ok es ∧
      es.head? = some (myfloor (npMin 1 [2, 3, 4]) 2) ∧
      es.getLast? = some (myceil (npMax 1 [2, 3, 4]) 2) ∧
      es.Chain' (fun p q => q = p + 2) ∧
      es.Chain' (· < ·) :=
  ⟨by norm_num, claim4_bin_edges.1 1 [2, 3, 4] 2 (by norm_num)⟩

unseal Rat.mul Rat.inv Rat.add Rat.sub in
/-- **C3** (evaluation at the failing input).  For
`x = [0.5, 1.5, 1.6]`, `y = [1, 2, 3]`, `base = 1`, `arr_len = 1`
(both bins qualify, so the pipeline completes): the post-removal `x_stat`,
`y_stat` and `y_std_err` all have 2 entries, but `y_std` is the
0-dimensional object array wrapping the unevaluated generator of source
lines 342-343 — it is not a length-matched 1-D array and is omitted from
the removal step of lines 350-355.  With `failval = 1/2` (which collides
with the first bin's statistic) a bin *is* removed: the filtered arrays
shrink to 1 entry while `y_std` is still the untouched 0-d generator
wrapper. -/
theorem claim3_eval :
    ((Stats_one_arr_patched [1/2, 3/2, 8/5] [1, 2, 3] 1 1 "n" .nanmean "average"
        (-99) false).toOption.map
      (fun r => (r.x_stat, r.y_stat.length, r.y_std_err.length, r.y_std)) =
      some ([1/2, 31/20], 2, 2, NpObj.gen0d)) ∧
    ((Stats_one_arr_patched [1/2, 3/2, 8/5] [1, 2, 3] 1 1 "n" .nanmean "average"
        (1/2) false).toOption.map
      (fun r => (r.x_stat, r.y_stat.length, r.y_std_err.length, r.y_std)) =
      some ([31/20], 1, 1, NpObj.gen0d)) :=
  ⟨rfl, rfl⟩

/-- Counterexample for C10: for a **one-dimensional** input and an
unrecognised `type_sigma`, `sigma_calcs` does *not* return a dictionary of
empty lists — it raises `AttributeError` when line 207 calls `.flatten()`
on the still-plain-list dictionary value. -/
theorem claim10_counterexample :
    sigma_calcs (.d1 [some 0]) "other" [68] false =
      .error (.attributeError "flatten") := rfl

/-- **C10 (amended).**  With an unrecognised `type_sigma` (neither
`'perc'` nor `'std'`) the mode string is never validated: for
two-dimensional input, `sigma_calcs` raises no error and returns the
dictionary mapping every level index to the initial empty list; for
one-dimensional input with at least one level, the `.flatten()` fix-up of
line 207 raises `AttributeError` on the plain-list value instead. -/
theorem claim10_unvalidated_mode (ts : String) (rms : Bool)
    (hp : ts ≠ "perc") (hs : ts ≠ "std") :
    (∀ (m : List (List (Option ℚ))) (perc_arr : List ℚ),
      (sigma_calcs (.d2 m) ts perc_arr rms).toOption.map SigmaResult.dict =
        some (perc_arr.map (fun _ => SigmaVal.pyList))) ∧
    (∀ (r : List (Option ℚ)) (p : ℚ) (ps : List ℚ),
      sigma_calcs (.d1 r) ts (p :: ps) rms =
        .error (.attributeError "flatten")) := by
  constructor
  · intro m perc_arr
    simp only [sigma_calcs, if_neg hp, if_neg hs]
    rfl
  · intro r p ps
    simp only [sigma_calcs, if_neg hp, if_neg hs, List.map_cons]
    rfl

/-- Witness for C10 (amended): concrete calls with mode `'other'`. -/
theorem claim10_witness :
    (sigma_calcs (.d2 [[some 0]]) "other" [68] false).toOption.map
        SigmaResult.dict = some [SigmaVal.pyList] ∧
    sigma_calcs (.d1 [some 0, some 1]) "other" [68, 95] true =
      .error (.attributeError "flatten") :=
  ⟨(claim10_unvalidated_mode "other" false (by decide) (by decide)).1 [[some 0]] [68],
   (claim10_unvalidated_mode "other" true (by decide) (by decide)).2
     [some 0, some 1] 68 [95]⟩

lemma mapE_ok {α β : Type} (f : α → Except PyErr β) (g : α → β) (l : List α)
    (h : ∀ a ∈ l, f a = .ok (g a)) : mapE f l = .ok (l.map g) := by
  induction l with
  | nil => rfl
  | cons a as ih =>
    rw [List.map_cons]
    unfold mapE
    rw [h a (List.mem_cons_self a as), ih (fun b hb => h b (List.mem_cons_of_mem a hb))]

lemma zipWith_map_same {α β γ δ : Type} (f : β → γ → δ) (g : α → β) (h : α → γ)
    (l : List α) :
    List.zipWith f (l.map g) (l.map h) = l.map (fun x => f (g x) (h x)) := by
  induction l with
  | nil => rfl
  | cons a as ih => simp [ih]

/-- The dictionary value the `'std'` branch of `sigma_calcs` computes for
level index `ii` (so sigma multiplier `ii + 1`): for 2-D input the stacked
lower/upper rows, for 1-D input the flattened pair. -/
noncomputable def stdEntry (d : DataArr) (ii : ℕ) : SigmaVal :=
  match d with
  | .d1 r => .arr1 [optLower (nanmean1 r) (nanstd1 r) (ii + 1),
      optUpper (nanmean1 r) (nanstd1 r) (ii + 1)]
  | .d2 m => .arr2 (m.map (fun r => optLower (nanmean1 r) (nanstd1 r) (ii + 1)))
      (m.map (fun r => optUpper (nanmean1 r) (nanstd1 r) (ii + 1)))

/-- Characterisation of `sigma_calcs` in `'std'` mode: it always succeeds
and its dictionary is `stdEntry` at each level index. -/
lemma sigma_calcs_std (d : DataArr) (perc_arr : List ℚ) (rms : Bool) :
    sigma_calcs d "std" perc_arr rms =
      .ok ⟨(List.range perc_arr.length).map (stdEntry d),
        if rms then some (d.rows.map nanmean1, d.rows.map nanstd1) else none⟩ := by
  cases d with
  | d1 r =>
    have h1 : sigma_calcs (.d1 r) "std" perc_arr rms =
        match mapE SigmaVal.flatten ((List.range perc_arr.length).map
            (fun ii => SigmaVal.arr2 [optLower (nanmean1 r) (nanstd1 r) (ii + 1)]
              [optUpper (nanmean1 r) (nanstd1 r) (ii + 1)])) with
        | .error e => .error e
        | .ok dd => .ok ⟨dd, if rms then
            some ((DataArr.d1 r).rows.map nanmean1, (DataArr.d1 r).rows.map nanstd1)
            else none⟩ := rfl
    rw [h1, mapE_ok SigmaVal.flatten
      (fun v => match v with
        | .arr2 lower upper => SigmaVal.arr1 (lower ++ upper)
        | v => v)]
    · rw [List.map_map]
      rfl
    · intro a ha
      obtain ⟨ii, -, rfl⟩ := List.mem_map.mp ha
      rfl
  | d2 m =>
    have h1 : sigma_calcs (.d2 m) "std" perc_arr rms =
        .ok ⟨(List.range perc_arr.length).map (fun ii => SigmaVal.arr2
            (List.zipWith (fun mm s => optLower mm s (ii + 1))
              (m.map nanmean1) (m.map nanstd1))
            (List.zipWith (fun mm s => optUpper mm s (ii + 1))
              (m.map nanmean1) (m.map nanstd1))),
          if rms then
            some ((DataArr.d2 m).rows.map nanmean1, (DataArr.d2 m).rows.map nanstd1)
            else none⟩ := rfl
    rw [h1]
    have h2 : ∀ ii : ℕ, SigmaVal.arr2
        (List.zipWith (fun mm s => optLower mm s (ii + 1))
          (m.map nanmean1) (m.map nanstd1))
        (List.zipWith (fun mm s => optUpper mm s (ii + 1))
          (m.map nanmean1) (m.map nanstd1)) = stdEntry (.d2 m) ii := by
      intro ii
      rw [zipWith_map_same, zipWith_map_same]
      rfl
    simp only [h2]

lemma range_map_get? {α : Type} (f : ℕ → α) (n i : ℕ) (h : i < n) :
    ((List.range n).map f).get? i = some (f i) := by
  rw [List.get?_map, List.get?_range h]
  rfl

lemma range_map_get?_inv {α : Type} (f : ℕ → α) (n i : ℕ) (v : α)
    (h : ((List.range n).map f).get? i = some v) : v = f i := by
  have hlt : i < n := by
    by_contra hge
    rw [List.get?_eq_none.mpr (by simp; omega)] at h
    exact Option.noConfusion h
  rw [range_map_get? f n i hlt] at h
  exact (Option.some.inj h).symm

/-- The dictionary entry of a `sigma_calcs` result at level index `ii`
(`none` when the call raised or the index is out of range). -/
def dictEntry (res : Except PyErr SigmaResult) (ii : ℕ) : Option SigmaVal :=
  match res with
  | .ok out => out.dict.get? ii
  | .error _ => none

/-- The lower bound a dictionary value stores for reduction slice `j`
(row `0` of the stacked 2×n array; position `0` of a flattened pair). -/
def SigmaVal.lowerAt : SigmaVal → ℕ → Option ℝ
  | .arr2 lower _, j => (lower.get? j).join
  | .arr1 entries, 0 => (entries.get? 0).join
  | _, _ => none

/-- The upper bound a dictionary value stores for reduction slice `j`. -/
def SigmaVal.upperAt : SigmaVal → ℕ → Option ℝ
  | .arr2 _ upper, j => (upper.get? j).join
  | .arr1 entries, 0 => (entries.get? 1).join
  | _, _ => none

lemma stdEntry_lowerAt (d : DataArr) (ii j : ℕ) :
    (stdEntry d ii).lowerAt j =
      (d.rows.get? j).bind (fun r => optLower (nanmean1 r) (nanstd1 r) (ii + 1)) := by
  cases d with
  | d1 r =>
    cases j with
    | zero => rfl
    | succ j => cases j <;> rfl
  | d2 m =>
    show ((m.map (fun r => optLower (nanmean1 r) (nanstd1 r) (ii + 1))).get? j).join =
      (m.get? j).bind (fun r => optLower (nanmean1 r) (nanstd1 r) (ii + 1))
    rw [List.get?_map]
    cases m.get? j <;> rfl

lemma stdEntry_upperAt (d : DataArr) (ii j : ℕ) :
    (stdEntry d ii).upperAt j =
      (d.rows.get? j).bind (fun r => optUpper (nanmean1 r) (nanstd1 r) (ii + 1)) := by
  cases d with
  | d1 r =>
    cases j with
    | zero => rfl
    | succ j => cases j <;> rfl
  | d2 m =>
    show ((m.map (fun r => optUpper (nanmean1 r) (nanstd1 r) (ii + 1))).get? j).join =
      (m.get? j).bind (fun r => optUpper (nanmean1 r) (nanstd1 r) (ii + 1))
    rw [List.get?_map]
    cases m.get? j <;> rfl

lemma nanstd1_nonneg (r : List (Option ℚ)) (s : ℝ) (h : nanstd1 r = some s) :
    0 ≤ s := by
  unfold nanstd1 at h
  cases hv : nanvar1 r with
  | none => rw [hv] at h; simp at h
  | some q =>
    rw [hv] at h
    simp at h
    rw [← h]
    exact Real.sqrt_nonneg _

/-- Modelled from the spec (§4.3, StdDev method): for the k-th level
(1-indexed), `lower = mean - k*std`, with mean and std computed ignoring
invalid entries along the reduction axis (NaN when a slice has no valid
entry). -/
noncomputable def specStdLower (r : List (Option ℚ)) (k : ℕ) : Option ℝ :=
  match nanmean1 r, nanstd1 r with
  | some m, some s => some ((m : ℝ) - k * s)
  | _, _ => none

/-- Modelled from the spec (§4.3, StdDev method): for the k-th level
(1-indexed), `upper = mean + k*std`. -/
noncomputable def specStdUpper (r : List (Option ℚ)) (k : ℕ) : Option ℝ :=
  match nanmean1 r, nanstd1 r with
  | some m, some s => some ((m : ℝ) + k * s)
  | _, _ => none

/-- **C6.**  In `'std'` mode `sigma_calcs` succeeds and the dictionary
value for the k-th level (1-indexed, stored at key `k - 1`) is exactly the
spec's band `mean ∓ k·std` per reduction slice: the whole (flattened) array
for 1-D input, each row for 2-D input. -/
theorem claim6_std_bands (d : DataArr) (perc_arr : List ℚ) (rms : Bool)
    (k : ℕ) (hk1 : 1 ≤ k) (hk2 : k ≤ perc_arr.length) :
    ∃ out, sigma_calcs d "std" perc_arr rms = .ok out ∧
      out.dict.get? (k - 1) = some (match d with
        | .d1 r => .arr1 [specStdLower r k, specStdUpper r k]
        | .d2 m => .arr2 (m.map (fun r => specStdLower r k))
            (m.map (fun r => specStdUpper r k))) := by
  obtain ⟨kk, rfl⟩ : ∃ kk, k = kk + 1 := ⟨k - 1, by omega⟩
  refine ⟨_, sigma_calcs_std d perc_arr rms, ?_⟩
  show ((List.range perc_arr.length).map (stdEntry d)).get? (kk + 1 - 1) = _
  rw [show kk + 1 - 1 = kk from rfl, range_map_get? _ _ kk (by omega)]
  cases d <;> rfl

/-- Witness for C6: σ-band of the first level of a concrete 1-D call. -/
theorem claim6_witness :
    dictEntry (sigma_calcs (.d1 [some 0]) "std" [68] false) 0 =
      some (.arr1 [specStdLower [some 0] 1, specStdUpper [some 0] 1]) := by
  obtain ⟨out, h1, h2⟩ :=
    claim6_std_bands (.d1 [some 0]) [68] false 1 (by omega) (by simp)
  rw [h1]
  exact h2

/-- `a` and `b` are both defined and ordered, whenever both are defined
(NaN entries, modelled `none`, have no order). -/
def leOpt (a b : Option ℝ) : Prop :=
  ∀ va vb, a = some va → b = some vb → va ≤ vb

lemma optLower_inv (m : Option ℚ) (s : Option ℝ) (k : ℕ) (v : ℝ)
    (h : optLower m s k = some v) :
    ∃ (mq : ℚ) (sr : ℝ), m = some mq ∧ s = some sr ∧ v = (mq : ℝ) - k * sr := by
  cases m with
  | none => simp [optLower] at h
  | some mq =>
    cases s with
    | none => simp [optLower] at h
    | some sr =>
      simp only [optLower, Option.some.injEq] at h
      exact ⟨mq, sr, rfl, rfl, h.symm⟩

lemma optUpper_inv (m : Option ℚ) (s : Option ℝ) (k : ℕ) (v : ℝ)
    (h : optUpper m s k = some v) :
    ∃ (mq : ℚ) (sr : ℝ), m = some mq ∧ s = some sr ∧ v = (mq : ℝ) + k * sr := by
  cases m with
  | none => simp [optUpper] at h
  | some mq =>
    cases s with
    | none => simp [optUpper] at h
    | some sr =>
      simp only [optUpper, Option.some.injEq] at h
      exact ⟨mq, sr, rfl, rfl, h.symm⟩

lemma sigma_std_lowerAt (d : DataArr) (perc_arr : List ℚ) (rms : Bool)
    (ii j : ℕ) (v : ℝ)
    (h : ((dictEntry (sigma_calcs d "std" perc_arr rms) ii).bind
      (fun e => e.lowerAt j)) = some v) :
    ∃ (r : List (Option ℚ)) (mq : ℚ) (sr : ℝ), d.rows.get? j = some r ∧
      nanmean1 r = some mq ∧ nanstd1 r = some sr ∧
      v = (mq : ℝ) - (ii + 1) * sr := by
  obtain ⟨e, he, hv⟩ := Option.bind_eq_some.mp h
  rw [sigma_calcs_std] at he
  have hee : e = stdEntry d ii := range_map_get?_inv _ _ _ _ he
  rw [hee, stdEntry_lowerAt] at hv
  obtain ⟨r, hr, hv2⟩ := Option.bind_eq_some.mp hv
  obtain ⟨mq, sr, hm, hs, hveq⟩ := optLower_inv _ _ _ _ hv2
  exact ⟨r, mq, sr, hr, hm, hs, by push_cast at hveq ⊢; linarith [hveq.le, hveq.ge]⟩

lemma sigma_std_upperAt (d : DataArr) (perc_arr : List ℚ) (rms : Bool)
    (ii j : ℕ) (v : ℝ)
    (h : ((dictEntry (sigma_calcs d "std" perc_arr rms) ii).bind
      (fun e => e.upperAt j)) = some v) :
    ∃ (r : List (Option ℚ)) (mq : ℚ) (sr : ℝ), d.rows.get? j = some r ∧
      nanmean1 r = some mq ∧ nanstd1 r = some sr ∧
      v = (mq : ℝ) + (ii + 1) * sr := by
  obtain ⟨e, he, hv⟩ := Option.bind_eq_some.mp h
  rw [sigma_calcs_std] at he
  have hee : e = stdEntry d ii := range_map_get?_inv _ _ _ _ he
  rw [hee, stdEntry_upperAt] at hv
  obtain ⟨r, hr, hv2⟩ := Option.bind_eq_some.mp hv
  obtain ⟨mq, sr, hm, hs, hveq⟩ := optUpper_inv _ _ _ _ hv2
  exact ⟨r, mq, sr, hr, hm, hs, by push_cast at hveq ⊢; linarith [hveq.le, hveq.ge]⟩

/-- **C7.**  For `'std'` mode, wherever the stored bounds are defined:
`lower ≤ upper` at every level and slice, and the bands are nested — the
interval of level index `ii` is contained in that of level index `ii + 1`
(lower bounds decrease, upper bounds increase with the level). -/
theorem claim7_band_nesting (d : DataArr) (perc_arr : List ℚ) (rms : Bool)
    (ii j : ℕ) :
    leOpt ((dictEntry (sigma_calcs d "std" perc_arr rms) ii).bind
        (fun e => e.lowerAt j))
      ((dictEntry (sigma_calcs d "std" perc_arr rms) ii).bind
        (fun e => e.upperAt j)) ∧
    leOpt ((dictEntry (sigma_calcs d "std" perc_arr rms) (ii + 1)).bind
        (fun e => e.lowerAt j))
      ((dictEntry (sigma_calcs d "std" perc_arr rms) ii).bind
        (fun e => e.lowerAt j)) ∧
    leOpt ((dictEntry (sigma_calcs d "std" perc_arr rms) ii).bind
        (fun e => e.upperAt j))
      ((dictEntry (sigma_calcs d "std" perc_arr rms) (ii + 1)).bind
        (fun e => e.upperAt j)) := by
  refine ⟨?_, ?_, ?_⟩
  · intro va vb ha hb
    obtain ⟨r, mq, sr, hr, hm, hs, hva⟩ := sigma_std_lowerAt d perc_arr rms ii j va ha
    obtain ⟨r', mq', sr', hr', hm', hs', hvb⟩ := sigma_std_upperAt d perc_arr rms ii j vb hb
    rw [hr] at hr'
    obtain rfl : r = r' := Option.some.inj hr'
    rw [hm] at hm'
    obtain rfl : mq = mq' := Option.some.inj hm'
    rw [hs] at hs'
    obtain rfl : sr = sr' := Option.some.inj hs'
    have hs0 : 0 ≤ sr := nanstd1_nonneg r sr hs
    have hk0 : (0 : ℝ) ≤ (ii + 1 : ℕ) := by positivity
    nlinarith [hva, hvb]
  · intro va vb ha hb
    obtain ⟨r, mq, sr, hr, hm, hs, hva⟩ :=
      sigma_std_lowerAt d perc_arr rms (ii + 1) j va ha
    obtain ⟨r', mq', sr', hr', hm', hs', hvb⟩ :=
      sigma_std_lowerAt d perc_arr rms ii j vb hb
    rw [hr] at hr'
    obtain rfl : r = r' := Option.some.inj hr'
    rw [hm] at hm'
    obtain rfl : mq = mq' := Option.some.inj hm'
    rw [hs] at hs'
    obtain rfl : sr = sr' := Option.some.inj hs'
    have hs0 : 0 ≤ sr := nanstd1_nonneg r sr hs
    push_cast at hva hvb
    rw [hva, hvb]
    linarith [hs0]
  · intro va vb ha hb
    obtain ⟨r, mq, sr, hr, hm, hs, hva⟩ :=
      sigma_std_upperAt d perc_arr rms ii j va ha
    obtain ⟨r', mq', sr', hr', hm', hs', hvb⟩ :=
      sigma_std_upperAt d perc_arr rms (ii + 1) j vb hb
    rw [hr] at hr'
    obtain rfl : r = r' := Option.some.inj hr'
    rw [hm] at hm'
    obtain rfl : mq = mq' := Option.some.inj hm'
    rw [hs] at hs'
    obtain rfl : sr = sr' := Option.some.inj hs'
    have hs0 : 0 ≤ sr := nanstd1_nonneg r sr hs
    push_cast at hva hvb
    rw [hva, hvb]
    linarith [hs0]

/-- Witness for C7: the first-level band of a concrete call is ordered. -/
theorem claim7_witness :
    leOpt ((dictEntry (sigma_calcs (.d1 [some 0]) "std" [68, 95] false) 0).bind
        (fun e => e.lowerAt 0))
      ((dictEntry (sigma_calcs (.d1 [some 0]) "std" [68, 95] false) 0).bind
        (fun e => e.upperAt 0)) :=
  (claim7_band_nesting (.d1 [some 0]) [68, 95] false 0 0).1

end StatsFuncs
